import Mathlib

/-!
Verification of the openai-gateway proxy (main.go and its configuration-file
variant).  The development shallowly embeds the request/response translation
pipeline: JSON documents decoded by encoding/json into string-keyed maps are
modelled as association lists of `JVal`; the streaming translator
`handleStreamResponse` becomes a recursive function over the list of lines
delivered by `bufio.Reader.ReadString`, with client cancellation modelled as
a predicate on the number of chunks written so far; the proxy handler
`openaiProxyHandler` becomes a function of the results of its external
effects (auth-service reply, inbound body parse, backend reply).
-/

set_option autoImplicit false

namespace OpenAIGateway

/-- A JSON value as produced by encoding/json when decoding into
`map[string]interface/`interface` values.  Numbers are modelled as integers
(the gateway only ever coerces them through `%v` + `strconv.Atoi`, for which
non-integral numbers behave like any other non-numeric text). -/
inductive JVal where
  | str (s : String)
  | num (n : Int)
  | bool (b : Bool)
  | null
  | arr (xs : List JVal)
  | obj (members : List (String × JVal))

/-- A decoded JSON object: the `map[string]interface` of the Go source,
modelled as an association list with unique keys. -/
abbrev JObj := List (String × JVal)

/-- Go map lookup `m[k]` (keys are unique, so first match is the match). -/
def mapGet (m : JObj) (k : String) : Option JVal :=
  match m with
  | [] => none
  | (k2, v) :: rest => if k2 = k then some v else mapGet rest k

/-- Go map assignment `m[k] = v`: replaces the binding when the key is
present, otherwise adds it. -/
def mapSet (m : JObj) (k : String) (v : JVal) : JObj :=
  match m with
  | [] => [(k, v)]
  | (k2, v2) :: rest => if k2 = k then (k, v) :: rest else (k2, v2) :: mapSet rest k v

/-! ### Go standard-library helpers used by the gateway -/

/-- Whitespace recognised by `strings.TrimSpace`, i.e. `unicode.IsSpace`:
tab through carriage return, space, NEL, no-break space, and the Unicode
space separators (OGHAM SPACE MARK, the EN QUAD .. HAIR SPACE run, LINE and
PARAGRAPH SEPARATOR, NARROW NO-BREAK SPACE, MEDIUM MATHEMATICAL SPACE,
IDEOGRAPHIC SPACE). -/
def isGoSpace (c : Char) : Bool :=
  let n := Char.toNat c
  (decide (9 ≤ n) && decide (n ≤ 13)) || n == 32 || n == 133 || n == 160
    || n == 5760 || (decide (8192 ≤ n) && decide (n ≤ 8202)) || n == 8232
    || n == 8233 || n == 8239 || n == 8287 || n == 12288

/-- `strings.TrimSpace`. -/
def goTrimSpace (s : String) : String :=
  ⟨((s.data.dropWhile isGoSpace).reverse.dropWhile isGoSpace).reverse⟩

/-- `strings.HasPrefix s pre`. -/
def strStartsWith (s pre : String) : Bool :=
  pre.data.isPrefixOf s.data

/-- `strings.TrimPrefix s pre`. -/
def strTrimLead (s pre : String) : String :=
  if pre.data.isPrefixOf s.data then ⟨s.data.drop pre.data.length⟩ else s

/-- `strings.ReplaceAll u "-" ""`: with a one-character pattern and an empty
replacement this is exactly the removal of every dash. -/
def stripDashes (u : String) : String :=
  ⟨u.data.filter (fun c => c != '-')⟩

/-- Value of a digit string. -/
def digitsVal (l : List Char) : Int :=
  Int.ofNat (l.foldl (fun acc c => 10 * acc + (Char.toNat c - 48)) 0)

/-- All characters are decimal digits and there is at least one. -/
def allDigits (l : List Char) : Bool :=
  !l.isEmpty && l.all Char.isDigit

/-- `strconv.Atoi` with its error ignored, as the gateway uses it
(`n, _ = strconv.Atoi(s)`): the parsed integer on success, `0` on a syntax
error, and — because `Atoi` reports `ErrRange` alongside the clamped value
and the gateway drops the error — `MaxInt64`/`MinInt64` for digit strings
beyond the 64-bit range. -/
def goAtoi (s : String) : Int :=
  match s.data with
  | '+' :: ds =>
    if allDigits ds then min (digitsVal ds) 9223372036854775807 else 0
  | '-' :: ds =>
    if allDigits ds then max (-(digitsVal ds)) (-9223372036854775808) else 0
  | ds =>
    if allDigits ds then min (digitsVal ds) 9223372036854775807 else 0

/-- Go 64-bit `int` arithmetic: reduce an unbounded result to the
two's-complement value the machine addition produces. -/
def wrapInt64 (n : Int) : Int :=
  (n + 9223372036854775808) % 18446744073709551616 - 9223372036854775808

/-- `strconv.ParseBool` with its error ignored, as the gateway uses it:
`true` exactly on the six accepted true spellings, `false` on the accepted
false spellings and on every error. -/
def goParseBool (s : String) : Bool :=
  s == "1" || s == "t" || s == "T" || s == "true" || s == "TRUE" || s == "True"

/-- `fmt.Sprintf` of a decoded JSON value with verb `%v`.  Strings,
booleans and null render exactly as in Go.  Numbers render as exact decimal
digits, which matches Go for the integral magnitudes the claims exercise;
Go's float64 `%g` rendering (exponent form once the decimal exponent
reaches the shortest-digit count, rounding beyond 2^53) is not modelled.
Composite values render to fixed non-numeric placeholders (Go would print
`map[...]`/`[...]` forms whose exact text the gateway never relies on:
they only ever flow into `strconv.Atoi`, which rejects both). -/
def goFmtV : JVal → String
  | .str s => s
  | .num n => toString n
  | .bool true => "true"
  | .bool false => "false"
  | .null => "<nil>"
  | .arr _ => "[composite]"
  | .obj _ => "map[composite]"

/-- `fmt.Sprintf("%v", m[k])` where the index expression may miss: a missing
key yields the nil interface value, printed `<nil>`. -/
def goFmtOpt : Option JVal → String
  | none => "<nil>"
  | some v => goFmtV v

/-! ### encoding/json, on a subset of the JSON grammar

A small executable parser for JSON texts: objects, arrays, strings with the
simple escapes, integer numbers, `true`/`false`/`null`.  On this subset it
agrees with `json.Unmarshal` exactly, including the scanner's rejection of
raw control characters inside string literals and of leading-zero numbers;
every text it accepts is valid JSON that Go decodes to the same data
(duplicate object keys overwrite, as in a Go map).  Texts outside the
subset (`\u` escapes, fractional or exponent number parts) are rejected.
`parseJsonObj` mirrors unmarshalling into `map[string]interface`: it also
fails when the document is not an object, except that a `null` document
leaves the map nil without an error — and a nil map reads like an empty one
everywhere the gateway touches it. -/

/-- JSON insignificant whitespace. -/
def isJsonWs (c : Char) : Bool :=
  c = ' ' || c = '\t' || c = '\n' || c = '\r'

def skipWs (cs : List Char) : List Char :=
  cs.dropWhile isJsonWs

/-- Decode one escape character of a JSON string literal (`\uXXXX` escapes
are not modelled; the gateway's frames never carry them). -/
def unescapeChar (e : Char) : Option Char :=
  if e = 'n' then some '\n'
  else if e = 't' then some '\t'
  else if e = 'r' then some '\r'
  else if e = '"' ∨ e = '\\' ∨ e = '/' then some e
  else if e = 'b' then some (Char.ofNat 8)
  else if e = 'f' then some (Char.ofNat 12)
  else none

/-- Parse the remainder of a JSON string literal (the opening quote has been
consumed); returns the decoded text and the input after the closing quote.
A raw control character below 0x20 is a syntax error, as in encoding/json's
scanner. -/
def pStringLit : List Char → Option (String × List Char)
  | [] => none
  | c :: cs =>
    if c = '"' then some ("", cs)
    else if c = '\\' then
      match cs with
      | [] => none
      | e :: cs2 =>
        match unescapeChar e with
        | none => none
        | some d =>
          match pStringLit cs2 with
          | none => none
          | some (s, r) => some (⟨d :: s.data⟩, r)
    else if Char.toNat c < 32 then none
    else
      match pStringLit cs with
      | none => none
      | some (s, r) => some (⟨c :: s.data⟩, r)

/-- The JSON `int` production: one or more digits, with no leading zero
unless the number is exactly `0` (encoding/json rejects `013`). -/
def validIntDigits : List Char → Bool
  | [] => false
  | ['0'] => true
  | '0' :: _ => false
  | _ => true

/-- Parse a JSON number (integers only; a fractional or exponent part makes
the surrounding document unparseable, see `parseJson`). -/
def pNumber (cs : List Char) : Option (Int × List Char) :=
  match cs with
  | '-' :: rest =>
    let ds := rest.takeWhile Char.isDigit
    if validIntDigits ds then some (-(digitsVal ds), rest.dropWhile Char.isDigit)
    else none
  | _ =>
    let ds := cs.takeWhile Char.isDigit
    if validIntDigits ds then some (digitsVal ds, cs.dropWhile Char.isDigit)
    else none

/-- What the recursive parser is currently reading: a value, the members of
an object, or the elements of an array. -/
inductive PMode where
  | val
  | members (acc : JObj)
  | elems (acc : List JVal)

inductive POut where
  | v (x : JVal)
  | ms (xs : JObj)
  | es (xs : List JVal)

def expectLit (lit cs : List Char) : Option (List Char) :=
  if lit.isPrefixOf cs then some (cs.drop lit.length) else none

/-- Fuel-indexed recursive-descent JSON parser. -/
def pRun : Nat → PMode → List Char → Option (POut × List Char)
  | 0, _, _ => none
  | fuel+1, .val, cs =>
    match skipWs cs with
    | [] => none
    | c :: rest =>
      if c = '"' then
        match pStringLit rest with
        | some (s, r) => some (.v (.str s), r)
        | none => none
      else if c = Char.ofNat 123 then
        match skipWs rest with
        | c2 :: r2 =>
          if c2 = Char.ofNat 125 then some (.v (.obj []), r2)
          else
            match pRun fuel (.members []) (c2 :: r2) with
            | some (.ms xs, r) => some (.v (.obj xs), r)
            | _ => none
        | [] => none
      else if c = '[' then
        match skipWs rest with
        | c2 :: r2 =>
          if c2 = ']' then some (.v (.arr []), r2)
          else
            match pRun fuel (.elems []) (c2 :: r2) with
            | some (.es xs, r) => some (.v (.arr xs), r)
            | _ => none
        | [] => none
      else if c = 't' then
        match expectLit ['r', 'u', 'e'] rest with
        | some r => some (.v (.bool true), r)
        | none => none
      else if c = 'f' then
        match expectLit ['a', 'l', 's', 'e'] rest with
        | some r => some (.v (.bool false), r)
        | none => none
      else if c = 'n' then
        match expectLit ['u', 'l', 'l'] rest with
        | some r => some (.v .null, r)
        | none => none
      else
        match pNumber (c :: rest) with
        | some (n, r) => some (.v (.num n), r)
        | none => none
  | fuel+1, .members acc, cs =>
    match skipWs cs with
    | [] => none
    | c :: rest =>
      if c = '"' then
        match pStringLit rest with
        | none => none
        | some (k, r1) =>
          match skipWs r1 with
          | ':' :: r2 =>
            match pRun fuel .val r2 with
            | some (.v v, r3) =>
              match skipWs r3 with
              | ',' :: r4 => pRun fuel (.members (mapSet acc k v)) r4
              | c5 :: r5 =>
                if c5 = Char.ofNat 125 then some (.ms (mapSet acc k v), r5) else none
              | [] => none
            | _ => none
          | _ => none
      else none
  | fuel+1, .elems acc, cs =>
    match pRun fuel .val cs with
    | some (.v v, r) =>
      match skipWs r with
      | ',' :: r2 => pRun fuel (.elems (acc ++ [v])) r2
      | c2 :: r2 => if c2 = ']' then some (.es (acc ++ [v]), r2) else none
      | [] => none
    | _ => none

/-- `json.Unmarshal` of a complete text into an `interface`-typed value
(restricted as described above): the parsed value when the whole input is
one JSON document, `none` otherwise. -/
def parseJson (s : String) : Option JVal :=
  match pRun (2 * s.data.length + 2) .val s.data with
  | some (.v v, rest) => if (skipWs rest).isEmpty then some v else none
  | _ => none

/-- `json.Unmarshal` into `map[string]interface`: additionally fails when
the document is neither a JSON object nor `null`.  Unmarshalling `null`
succeeds and leaves the map nil, which reads as an empty map in every
lookup the gateway performs. -/
def parseJsonObj (s : String) : Option JObj :=
  match parseJson s with
  | some (JVal.obj ms) => some ms
  | some JVal.null => some []
  | _ => none

/-! ### Identifiers -/

/-- The response identifier: `fmt.Sprintf("chatcmpl-%s",
strings.ReplaceAll(generateRandomString(), "-", ""))`, as a function of the
random UUID text produced by `uuid.New().String()`. -/
def mkChatcmplID (u : String) : String :=
  "chatcmpl-" ++ stripDashes u

/-! ### Credential Provider (`getJWTToken`) -/

/-- Result of a Go call that can return normally, return an error, or panic
(a failed unchecked type assertion). -/
inductive GoResult (α : Type) where
  | ok (a : α)
  | err
  | panicked

/-- The `t.(string)` assertion applied to the credential field, followed by
the trailing empty-string check of `getJWTToken` (the error messages of the
source are not modelled). -/
def assertCredential : JVal → GoResult String
  | .str s => if s = "" then .err else .ok s
  | _ => .panicked

/-- The field-extraction tail of `getJWTToken`: try `token`, then
`access_token`, then `jwt`; error when none of the three is present. -/
def getJWTTokenExtract (tokenResp : JObj) : GoResult String :=
  match mapGet tokenResp "token" with
  | some t => assertCredential t
  | none =>
    match mapGet tokenResp "access_token" with
    | some t => assertCredential t
    | none =>
      match mapGet tokenResp "jwt" with
      | some t => assertCredential t
      | none => .err

/-- `getJWTToken` as a function of the auth call's outcome: `none` models a
failure before a body is available (request construction, transport, or
body-read failure), `some body` the reply body.  The payload the gateway
sends to the auth service does not influence the result. -/
def getJWTToken (netResult : Option String) : GoResult String :=
  match netResult with
  | none => .err
  | some body =>
    match parseJsonObj body with
    | none => .err
    | some tokenResp => getJWTTokenExtract tokenResp

/-! ### Request Normalizer -/

/-- The configured default request parameters (`DEFAULT_USER`,
`DEFAULT_MAX_TOKEN`). -/
structure ProxyConfig where
  defaultUser : String
  defaultMaxToken : Int

/-- Step 3 of `openaiProxyHandler`: fill in the default `user` when the key
`user` is absent, and write the default under `max_tokens` when the key
`max_token` is absent (the checked key and the written key differ in the
source). -/
def applyDefaults (cfg : ProxyConfig) (openaiRequest : JObj) : JObj :=
  let r1 :=
    match mapGet openaiRequest "user" with
    | some _ => openaiRequest
    | none => mapSet openaiRequest "user" (.str cfg.defaultUser)
  match mapGet r1 "max_token" with
  | some _ => r1
  | none => mapSet r1 "max_tokens" (.num cfg.defaultMaxToken)

/-- Step 4 of `openaiProxyHandler`: the routing model name, defaulting to
`gpt-3.5-turbo`. -/
def reqModel (openaiRequest : JObj) : String :=
  match mapGet openaiRequest "model" with
  | some m => goFmtV m
  | none => "gpt-3.5-turbo"

/-- Step 4 of `openaiProxyHandler`: the `stream` flag,
`strconv.ParseBool(fmt.Sprintf("%v", s))` with the error ignored. -/
def reqStreamFlag (openaiRequest : JObj) : Bool :=
  match mapGet openaiRequest "stream" with
  | some s => goParseBool (goFmtV s)
  | none => false

/-! ### Streaming Response Translator (`handleStreamResponse`) -/

/-- One OpenAI stream chunk as the gateway builds it.  `deltaContent` and
`deltaRole` are the `Delta` fields (empty string = Go zero value, omitted on
the wire by `omitempty`); `finishReason` likewise. -/
structure OpenAIStreamChunk where
  id : String
  object : String
  created : Int
  model : String
  deltaContent : String
  deltaRole : String
  finishReason : String
deriving DecidableEq

/-- The per-stream constants computed once before the read loop: the chunk
identifier and creation timestamp, plus the routing model name. -/
structure StreamCtx where
  chunkID : String
  created : Int
  model : String

/-- The terminal chunk emitted at end of input: empty delta,
`finish_reason = "stop"`. -/
def finishChunk (ctx : StreamCtx) : OpenAIStreamChunk :=
  ⟨ctx.chunkID, "chat.completion.chunk", ctx.created, ctx.model, "", "", "stop"⟩

/-- The per-line body of the read loop: `nil` when the line is dropped
(no `data: ` prefix after trimming, the `[DONE]` sentinel, or a payload that
does not unmarshal into a map), otherwise the translated chunk.
`json.Marshal` of the built chunk cannot fail, so its `continue` branch is
dead. -/
def lineToChunk (ctx : StreamCtx) (rawLine : String) : Option OpenAIStreamChunk :=
  let line := goTrimSpace rawLine
  if strStartsWith line "data: " = false then none
  else
    let dataStr := strTrimLead line "data: "
    if dataStr = "[DONE]" then none
    else
      match parseJsonObj dataStr with
      | none => none
      | some targetChunk =>
        some ⟨ctx.chunkID, "chat.completion.chunk", ctx.created, ctx.model,
              goFmtOpt (mapGet targetChunk "content"), "assistant", ""⟩

/-- How `handleStreamResponse` returned: `done` is a `nil` return (end of
input reached and terminal chunk written, or the client found cancelled
after a write), `readFailed` a non-EOF read error returned to the caller. -/
inductive StreamOutcome where
  | done
  | readFailed
deriving DecidableEq

/-- The read end the backend body presents after the listed lines:
clean end of input (`io.EOF`) or a read error. -/
inductive StreamEnd where
  | eof
  | readErr
deriving DecidableEq

/-- The read loop of `handleStreamResponse`.  The backend body is the list
of newline-terminated lines `bufio.Reader.ReadString` delivers, followed by
`streamEnd`; `written` counts chunks already written to the client and
`cancelled w` is whether `c.Request.Context().Err()` is non-nil at the check
performed right after the `w`-th chunk was written and flushed.  Returns the
chunks written, in order, and how the function returned. -/
def processStream (ctx : StreamCtx) (cancelled : Nat → Bool) :
    Nat → List String → StreamEnd → List OpenAIStreamChunk × StreamOutcome
  | _, [], .eof => ([finishChunk ctx], .done)
  | _, [], .readErr => ([], .readFailed)
  | written, line :: rest, e =>
    match lineToChunk ctx line with
    | none => processStream ctx cancelled written rest e
    | some ch =>
      if cancelled (written + 1) then ([ch], .done)
      else
        let r := processStream ctx cancelled (written + 1) rest e
        (ch :: r.1, r.2)

/-- The data chunks the backend lines translate to, disregarding
cancellation and the terminal chunk. -/
def dataChunks (ctx : StreamCtx) : List String → List OpenAIStreamChunk
  | [] => []
  | line :: rest =>
    match lineToChunk ctx line with
    | none => dataChunks ctx rest
    | some ch => ch :: dataChunks ctx rest

/-! ### Non-stream Response Translator (`convertToOpenAIResponse`) -/

structure OpenAIUsage where
  promptTokens : Int
  completionTokens : Int
  totalTokens : Int
deriving DecidableEq

/-- The OpenAI non-stream response the gateway builds (`choices` always has
exactly one element, inlined here). -/
structure OpenAIResponse where
  id : String
  object : String
  created : Int
  model : String
  messageRole : String
  messageContent : String
  finishReason : String
  index : Int
  usage : OpenAIUsage
deriving DecidableEq

/-- A usage count copied from the backend reply:
`strconv.Atoi(fmt.Sprintf("%v", v))` with the error ignored when the key is
present, the `int` zero value when absent. -/
def tokenCount (targetData : JObj) (key : String) : Int :=
  match mapGet targetData key with
  | some v => goAtoi (goFmtV v)
  | none => 0

/-- The response built by `convertToOpenAIResponse` from the decoded
backend reply (`u` is the random UUID text, `created` the timestamp).  The
`TotalTokens` sum is a Go 64-bit `int` addition, so it wraps on overflow. -/
def convertCore (targetData : JObj) (model u : String) (created : Int) :
    OpenAIResponse :=
  ⟨mkChatcmplID u, "chat.completion", created, model,
   "assistant", goFmtOpt (mapGet targetData "content"),
   goFmtOpt (mapGet targetData "finish_reason"), 0,
   ⟨tokenCount targetData "prompt_tokens",
    tokenCount targetData "completion_tokens",
    wrapInt64 (tokenCount targetData "prompt_tokens"
      + tokenCount targetData "completion_tokens")⟩⟩

/-- `convertToOpenAIResponse`: fails exactly when the backend body does not
unmarshal into a map (`json.Marshal` of the built response cannot fail). -/
def convertToOpenAIResponse (targetResp : String) (model u : String)
    (created : Int) : Option OpenAIResponse :=
  match parseJsonObj targetResp with
  | none => none
  | some targetData => some (convertCore targetData model u created)

/-! ### The proxy handler (`openaiProxyHandler`) -/

/-- The JSON error envelope `gin.H` with an `error` object holding
`message` and `type`. -/
def errEnvelope (msg ty : String) : JVal :=
  .obj [("error", .obj [("message", .str msg), ("type", .str ty)])]

/-- The backend's raw reply: status, `Content-Type` header, the body read as
a line stream (stream mode) and as a whole (`io.ReadAll`, where `none` is a
read failure). -/
structure BackendResp where
  status : Nat
  contentType : String
  streamLines : List String
  streamEnd : StreamEnd
  bodyRead : Option String

/-- What `openaiProxyHandler` sends to the client. -/
inductive HandlerOutcome where
  | errorReply (status : Nat) (body : JVal)
  | passthrough (status : Nat) (contentType : String) (body : String)
  | converted (status : Nat) (resp : OpenAIResponse)
  | streamOk (chunks : List OpenAIStreamChunk)
  | streamFailed (chunks : List OpenAIStreamChunk) (status : Nat) (body : JVal)
  | panicked

/-- `openaiProxyHandler` as a function of the results of its external
effects: `tokenNet` is the auth call's outcome (as in `getJWTToken`),
`inbound` the result of `ShouldBindJSON` on the client body, `backend` the
backend call's outcome (`none` = transport failure).  `streamUUID` /
`nonStreamUUID` and the two timestamps are the random UUID text and
`time.Now().Unix()` drawn inside the respective translator.  The error
messages keep the source's fixed prefixes; their dynamic `%s` suffixes are
not modelled.  `json.Marshal` of the string-keyed request map cannot fail
and `http.NewRequest` fails only on a malformed configured URL, so the two
`internal_error` replies of steps 5 and 6 are unreachable here. -/
def openaiProxyHandler (cfg : ProxyConfig) (tokenNet : Option String)
    (inbound : Option JObj) (backend : Option BackendResp)
    (streamUUID nonStreamUUID : String) (streamCreated nonStreamCreated : Int)
    (cancelled : Nat → Bool) : HandlerOutcome :=
  match getJWTToken tokenNet with
  | .err => .errorReply 500 (errEnvelope "获取Token失败" "token_error")
  | .panicked => .panicked
  | .ok _token =>
    match inbound with
    | none => .errorReply 400 (errEnvelope "解析请求体失败" "invalid_request_error")
    | some openaiRequest =>
      let req := applyDefaults cfg openaiRequest
      match backend with
      | none => .errorReply 502 (errEnvelope "转发请求失败" "downstream_error")
      | some b =>
        if reqStreamFlag req then
          match processStream ⟨mkChatcmplID streamUUID, streamCreated, reqModel req⟩
              cancelled 0 b.streamLines b.streamEnd with
          | (chunks, .done) => .streamOk chunks
          | (chunks, .readFailed) =>
            .streamFailed chunks 500 (errEnvelope "处理流式响应失败" "stream_error")
        else
          match b.bodyRead with
          | none => .errorReply 500 (errEnvelope "读取目标响应失败" "internal_error")
          | some respBody =>
            match convertToOpenAIResponse respBody (reqModel req) nonStreamUUID
                nonStreamCreated with
            | none => .passthrough b.status b.contentType respBody
            | some r => .converted b.status r

/-! ### Spec-side definitions used to state the claims -/

/-- The spec's credential precedence: the value of the first field present
among `token`, `access_token`, `jwt`, in that fixed order. -/
def firstCredentialField (tokenResp : JObj) : Option JVal :=
  match mapGet tokenResp "token" with
  | some t => some t
  | none =>
    match mapGet tokenResp "access_token" with
    | some t => some t
    | none => mapGet tokenResp "jwt"

/-- A lowercase hexadecimal digit, `[0-9a-f]`. -/
def isHexDigit (c : Char) : Bool :=
  c.isDigit || (decide ('a' ≤ c) && decide (c ≤ 'f'))

/-- The spec's identifier shape `^chatcmpl-[0-9a-f]\x7b32\x7d$` as a
decidable check. -/
def matchesChatcmplID (s : String) : Bool :=
  strStartsWith s "chatcmpl-" && ((s.data.drop 9).length == 32)
    && (s.data.drop 9).all isHexDigit

/-- The text shape of `uuid.New().String()`: five lowercase-hex groups of
8, 4, 4, 4 and 12 digits joined by dashes. -/
def IsUUIDText (u : String) : Prop :=
  ∃ a b c d e : List Char,
    u.data = a ++ '-' :: (b ++ '-' :: (c ++ '-' :: (d ++ '-' :: e))) ∧
    a.length = 8 ∧ b.length = 4 ∧ c.length = 4 ∧ d.length = 4 ∧ e.length = 12 ∧
    (∀ x ∈ a, isHexDigit x) ∧ (∀ x ∈ b, isHexDigit x) ∧ (∀ x ∈ c, isHexDigit x) ∧
    (∀ x ∈ d, isHexDigit x) ∧ (∀ x ∈ e, isHexDigit x)

/-- The spec's claimed HTTP status for each error envelope type. -/
def specErrStatus (ty : String) : Nat :=
  if ty = "invalid_request_error" then 400
  else if ty = "downstream_error" then 502
  else 500

/-- The five error types of the spec's taxonomy. -/
def claimedErrTypes : List String :=
  ["token_error", "invalid_request_error", "internal_error",
   "downstream_error", "stream_error"]

/-- The `type` field of a well-formed error envelope, when the body has the
claimed shape. -/
def envelopeType : JVal → Option String
  | .obj [("error", .obj [("message", .str _), ("type", .str t)])] => some t
  | _ => none

/-- Checks one handler outcome against the spec's failure contract: every
error reply carries the envelope shape, a type from the taxonomy and the
claimed status for that type; non-error outcomes pass vacuously. -/
def errorRepliesWellFormed : HandlerOutcome → Bool
  | .errorReply s b =>
    (match envelopeType b with
     | some ty => claimedErrTypes.contains ty && (s == specErrStatus ty)
     | none => false)
  | .streamFailed _ s b =>
    (match envelopeType b with
     | some ty => (ty == "stream_error") && (s == specErrStatus ty)
     | none => false)
  | _ => true

/-! ### Map lemmas -/

theorem mapGet_mapSet_self (m : JObj) (k : String) (v : JVal) :
    mapGet (mapSet m k v) k = some v := by
  induction m with
  | nil => simp [mapSet, mapGet]
  | cons hd t ih =>
    obtain ⟨k2, v2⟩ := hd
    by_cases hk : k2 = k
    · simp [mapSet, hk, mapGet]
    · simp [mapSet, hk, mapGet, ih]

theorem mapGet_mapSet_ne (m : JObj) (k k2 : String) (v : JVal)
    (hne : k2 ≠ k) : mapGet (mapSet m k v) k2 = mapGet m k2 := by
  have hne2 : k ≠ k2 := Ne.symm hne
  induction m with
  | nil => simp [mapSet, mapGet, hne2]
  | cons hd t ih =>
    obtain ⟨a, b⟩ := hd
    by_cases ha : a = k
    · subst ha
      simp [mapSet, mapGet, hne2]
    · simp [mapSet, ha, mapGet, ih]

/-! ### Claims -/

/-- C1: for the backend event stream of the two newline-terminated lines
`data: ` + an object with `content` "A" and `content` "B" followed by end
of input, the streaming translator writes exactly three chunks in order —
delta-content "A" with role `assistant`, delta-content "B" with role
`assistant`, and a terminal chunk with empty delta and
`finish_reason = "stop"` — and returns successfully. -/
theorem stream_two_lines_three_chunks (cid : String) (cr : Int) (m : String) :
    processStream ⟨cid, cr, m⟩ (fun _ => false) 0
      ["data: \x7b\"content\":\"A\"\x7d\n", "data: \x7b\"content\":\"B\"\x7d\n"]
      .eof
    = ([⟨cid, "chat.completion.chunk", cr, m, "A", "assistant", ""⟩,
        ⟨cid, "chat.completion.chunk", cr, m, "B", "assistant", ""⟩,
        ⟨cid, "chat.completion.chunk", cr, m, "", "", "stop"⟩], .done) := rfl

/-- C2: the Request Normalizer writes the default `user` only when the key
`user` is absent and preserves a present `user` value; the `max_tokens`
default is guarded by the absence of the key `max_token` but written under
`max_tokens`, so whenever `max_token` is absent the configured default
overwrites any caller-supplied `max_tokens` value (and when `max_token` is
present, `max_tokens` is left as the caller sent it). -/
theorem normalizer_default_keys (cfg : ProxyConfig) (req : JObj) :
    (∀ v, mapGet req "user" = some v →
      mapGet (applyDefaults cfg req) "user" = some v) ∧
    (mapGet req "user" = none →
      mapGet (applyDefaults cfg req) "user" = some (.str cfg.defaultUser)) ∧
    (mapGet req "max_token" = none →
      mapGet (applyDefaults cfg req) "max_tokens"
        = some (.num cfg.defaultMaxToken)) ∧
    (∀ v, mapGet req "max_token" = some v →
      mapGet (applyDefaults cfg req) "max_tokens" = mapGet req "max_tokens") := by
  have hum : ("max_tokens" : String) ≠ "user" := by decide
  have hmu : ("max_token" : String) ≠ "user" := by decide
  have hum2 : ("user" : String) ≠ "max_tokens" := by decide
  refine ⟨?_, ?_, ?_, ?_⟩
  · intro v hv
    cases hmt : mapGet req "max_token" with
    | some w => simp [applyDefaults, hv, hmt]
    | none =>
      simp [applyDefaults, hv, hmt,
        mapGet_mapSet_ne req "max_tokens" "user" (JVal.num cfg.defaultMaxToken) hum2]
  · intro hv
    cases hmt : mapGet (mapSet req "user" (.str cfg.defaultUser)) "max_token" with
    | some w => simp [applyDefaults, hv, hmt, mapGet_mapSet_self]
    | none =>
      simp [applyDefaults, hv, hmt,
        mapGet_mapSet_ne (mapSet req "user" (JVal.str cfg.defaultUser))
          "max_tokens" "user" (JVal.num cfg.defaultMaxToken) hum2,
        mapGet_mapSet_self]
  · intro hmt
    cases hu : mapGet req "user" with
    | some w => simp [applyDefaults, hu, hmt, mapGet_mapSet_self]
    | none =>
      have hmt2 : mapGet (mapSet req "user" (JVal.str cfg.defaultUser))
          "max_token" = none := by
        rw [mapGet_mapSet_ne req "user" "max_token" _ hmu]; exact hmt
      simp [applyDefaults, hu, hmt2, mapGet_mapSet_self]
  · intro v hmt
    cases hu : mapGet req "user" with
    | some w => simp [applyDefaults, hu, hmt]
    | none =>
      have hmt2 : mapGet (mapSet req "user" (JVal.str cfg.defaultUser))
          "max_token" = some v := by
        rw [mapGet_mapSet_ne req "user" "max_token" _ hmu]; exact hmt
      simp [applyDefaults, hu, hmt2,
        mapGet_mapSet_ne req "user" "max_tokens" (JVal.str cfg.defaultUser) hum]

/-- C2 applied: with caller-supplied `max_tokens` 5 and no `max_token` key,
the default (2000) overwrites the caller's value. -/
theorem normalizer_default_keys_app :
    mapGet (applyDefaults ⟨"ai_model_user", 2000⟩ [("max_tokens", .num 5)])
      "max_tokens" = some (.num 2000) :=
  (normalizer_default_keys ⟨"ai_model_user", 2000⟩ [("max_tokens", .num 5)]).2.2.1 rfl

/-- C3: on a JSON-object auth reply, credential acquisition returns the
value of the first field present among `token`, `access_token`, `jwt` in
that precedence order when that value is a (non-empty) string, returns an
error when it is the empty string, and returns an error when none of the
three fields is present. -/
theorem credential_field_precedence (tokenResp : JObj) :
    (firstCredentialField tokenResp = none →
      getJWTTokenExtract tokenResp = .err) ∧
    (∀ s, firstCredentialField tokenResp = some (.str s) →
      getJWTTokenExtract tokenResp
        = if s = "" then GoResult.err else GoResult.ok s) := by
  cases h1 : mapGet tokenResp "token" with
  | some t =>
    constructor
    · intro h
      simp [firstCredentialField, h1] at h
    · intro s hs
      have ht : t = .str s := by simpa [firstCredentialField, h1] using hs
      subst ht
      simp [getJWTTokenExtract, h1, assertCredential]
  | none =>
    cases h2 : mapGet tokenResp "access_token" with
    | some t =>
      constructor
      · intro h
        simp [firstCredentialField, h1, h2] at h
      · intro s hs
        have ht : t = .str s := by simpa [firstCredentialField, h1, h2] using hs
        subst ht
        simp [getJWTTokenExtract, h1, h2, assertCredential]
    | none =>
      cases h3 : mapGet tokenResp "jwt" with
      | some t =>
        constructor
        · intro h
          simp [firstCredentialField, h1, h2, h3] at h
        · intro s hs
          have ht : t = .str s := by simpa [firstCredentialField, h1, h2, h3] using hs
          subst ht
          simp [getJWTTokenExtract, h1, h2, h3, assertCredential]
      | none =>
        constructor
        · intro _
          simp [getJWTTokenExtract, h1, h2, h3]
        · intro s hs
          simp [firstCredentialField, h1, h2, h3] at hs

/-- C3 applied: with both `access_token` and `jwt` present (and no
`token`), `access_token` wins. -/
theorem credential_field_precedence_app :
    getJWTTokenExtract [("access_token", .str "abc"), ("jwt", .str "j")]
      = .ok "abc" := by
  have h :=
    (credential_field_precedence
      [("access_token", .str "abc"), ("jwt", .str "j")]).2 "abc" rfl
  simpa using h

/-- C10: when the auth reply is a JSON object whose first field in the
`token`/`access_token`/`jwt` precedence order holds a non-string value, the
unchecked type assertion panics: acquisition neither returns the value nor
a token error, and the whole request aborts instead of producing the error
envelope. -/
theorem nonstring_token_field_panics (tokenResp : JObj) (v : JVal)
    (hfirst : firstCredentialField tokenResp = some v)
    (hnotstr : ∀ s, v ≠ JVal.str s) :
    getJWTTokenExtract tokenResp = .panicked ∧
    ∀ (body : String) (cfg : ProxyConfig) (inbound : Option JObj)
      (backend : Option BackendResp) (su nu : String) (sc nc : Int)
      (cancelled : Nat → Bool),
      parseJsonObj body = some tokenResp →
      openaiProxyHandler cfg (some body) inbound backend su nu sc nc cancelled
        = .panicked := by
  have hassert : assertCredential v = .panicked := by
    cases v with
    | str s => exact absurd rfl (hnotstr s)
    | _ => rfl
  have hextract : getJWTTokenExtract tokenResp = .panicked := by
    cases h1 : mapGet tokenResp "token" with
    | some t =>
      have ht : t = v := by simpa [firstCredentialField, h1] using hfirst
      subst ht
      simp [getJWTTokenExtract, h1, hassert]
    | none =>
      cases h2 : mapGet tokenResp "access_token" with
      | some t =>
        have ht : t = v := by simpa [firstCredentialField, h1, h2] using hfirst
        subst ht
        simp [getJWTTokenExtract, h1, h2, hassert]
      | none =>
        cases h3 : mapGet tokenResp "jwt" with
        | some t =>
          have ht : t = v := by simpa [firstCredentialField, h1, h2, h3] using hfirst
          subst ht
          simp [getJWTTokenExtract, h1, h2, h3, hassert]
        | none =>
          exact absurd hfirst (by simp [firstCredentialField, h1, h2, h3])
  refine ⟨hextract, ?_⟩
  intro body cfg inbound backend su nu sc nc cancelled hbody
  have hget : getJWTToken (some body) = GoResult.panicked := by
    simp [getJWTToken, hbody, hextract]
  simp [openaiProxyHandler, hget]

/-- C10 applied: the auth reply with `token` holding the number 5 makes the
request abort with a panic rather than answer with an envelope. -/
theorem nonstring_token_field_panics_app :
    openaiProxyHandler ⟨"ai_model_user", 2000⟩ (some "\x7b\"token\":5\x7d")
      none none "" "" 0 0 (fun _ => false) = .panicked :=
  (nonstring_token_field_panics [("token", .num 5)] (.num 5) rfl
    (fun _ h => JVal.noConfusion h)).2
    "\x7b\"token\":5\x7d" ⟨"ai_model_user", 2000⟩ none none "" "" 0 0
    (fun _ => false) rfl

/-- C4: a non-stream backend reply whose body is not valid JSON is not
answered with an error envelope: the handler passes the backend's status
code, content type and body through to the client unchanged. -/
theorem nonstream_invalid_json_passthrough (cfg : ProxyConfig)
    (tokenNet : Option String) (tok : String) (req0 : JObj) (b : BackendResp)
    (body : String) (su nu : String) (sc nc : Int) (cancelled : Nat → Bool)
    (htok : getJWTToken tokenNet = .ok tok)
    (hstream : reqStreamFlag (applyDefaults cfg req0) = false)
    (hread : b.bodyRead = some body)
    (hparse : parseJsonObj body = none) :
    openaiProxyHandler cfg tokenNet (some req0) (some b) su nu sc nc cancelled
      = .passthrough b.status b.contentType body := by
  simp [openaiProxyHandler, htok, hstream, hread, convertToOpenAIResponse, hparse]

/-- C4 applied: backend status 418, content type `text/plain` and body
`oops` (not JSON) are passed through verbatim. -/
theorem nonstream_invalid_json_passthrough_app :
    openaiProxyHandler ⟨"ai_model_user", 2000⟩ (some "\x7b\"token\":\"t\"\x7d")
      (some []) (some ⟨418, "text/plain", [], .eof, some "oops"⟩)
      "" "" 0 0 (fun _ => false)
      = .passthrough 418 "text/plain" "oops" :=
  nonstream_invalid_json_passthrough ⟨"ai_model_user", 2000⟩
    (some "\x7b\"token\":\"t\"\x7d") "t" []
    ⟨418, "text/plain", [], .eof, some "oops"⟩ "oops" "" "" 0 0
    (fun _ => false) rfl rfl rfl rfl

/-- C6: a backend line that trims to something without the `data: ` prefix,
to the `data: [DONE]` sentinel, or to a `data: ` line whose payload does
not parse as a JSON object, produces no chunk and leaves the read loop
where it was: the remaining lines are processed exactly as if the bad line
had not been there. -/
theorem stream_bad_line_skipped (ctx : StreamCtx) (cancelled : Nat → Bool)
    (written : Nat) (line : String) (rest : List String) (e : StreamEnd)
    (h : strStartsWith (goTrimSpace line) "data: " = false ∨
         strTrimLead (goTrimSpace line) "data: " = "[DONE]" ∨
         parseJsonObj (strTrimLead (goTrimSpace line) "data: ") = none) :
    processStream ctx cancelled written (line :: rest) e
      = processStream ctx cancelled written rest e := by
  have hnone : lineToChunk ctx line = none := by
    unfold lineToChunk
    rcases h with h | h | h
    · simp [h]
    · by_cases hp : strStartsWith (goTrimSpace line) "data: " = false
      · simp [hp]
      · simp [hp, h]
    · by_cases hp : strStartsWith (goTrimSpace line) "data: " = false
      · simp [hp]
      · by_cases hd : strTrimLead (goTrimSpace line) "data: " = "[DONE]"
        · simp [hp, hd]
        · simp [hp, hd, h]
  simp [processStream, hnone]

/-- C6 applied: a `data: [DONE]` line before a well-formed line is skipped
and the following line is still translated. -/
theorem stream_bad_line_skipped_app :
    processStream ⟨"cid", 0, "m"⟩ (fun _ => false) 0
      ["data: [DONE]\n", "data: \x7b\"content\":\"X\"\x7d\n"] .eof
      = processStream ⟨"cid", 0, "m"⟩ (fun _ => false) 0
          ["data: \x7b\"content\":\"X\"\x7d\n"] .eof :=
  stream_bad_line_skipped ⟨"cid", 0, "m"⟩ (fun _ => false) 0
    "data: [DONE]\n" ["data: \x7b\"content\":\"X\"\x7d\n"] .eof
    (Or.inr (Or.inl rfl))

/-! ### Stream lemmas for C5 and C7 -/

/-- Every chunk `lineToChunk` builds carries the per-stream identifier and
timestamp and an empty `finish_reason`. -/
theorem lineToChunk_fields (ctx : StreamCtx) (l : String)
    (ch : OpenAIStreamChunk) (h : lineToChunk ctx l = some ch) :
    ch.id = ctx.chunkID ∧ ch.created = ctx.created ∧ ch.finishReason = "" := by
  unfold lineToChunk at h
  by_cases h1 : strStartsWith (goTrimSpace l) "data: " = false
  · simp [h1] at h
  · by_cases h2 : strTrimLead (goTrimSpace l) "data: " = "[DONE]"
    · simp [h1, h2] at h
    · cases hp : parseJsonObj (strTrimLead (goTrimSpace l) "data: ") with
      | none => simp [h1, h2, hp] at h
      | some o =>
        simp [h1, h2, hp] at h
        rw [← h]
        exact ⟨rfl, rfl, rfl⟩

/-- Every chunk the read loop writes — the terminal chunk included —
carries the stream's identifier and timestamp. -/
theorem processStream_mem_fields (ctx : StreamCtx) (cancelled : Nat → Bool) :
    ∀ (lines : List String) (n : Nat) (e : StreamEnd) (ch : OpenAIStreamChunk),
    ch ∈ (processStream ctx cancelled n lines e).1 →
    ch.id = ctx.chunkID ∧ ch.created = ctx.created := by
  intro lines
  induction lines with
  | nil =>
    intro n e ch hch
    cases e with
    | eof =>
      simp [processStream] at hch
      subst hch
      exact ⟨rfl, rfl⟩
    | readErr => simp [processStream] at hch
  | cons l rest ih =>
    intro n e ch hch
    simp only [processStream] at hch
    cases hl : lineToChunk ctx l with
    | none =>
      rw [hl] at hch
      exact ih n e ch hch
    | some c =>
      rw [hl] at hch
      by_cases hc : cancelled (n + 1)
      · simp [hc] at hch
        subst hch
        exact ⟨(lineToChunk_fields ctx l _ hl).1, (lineToChunk_fields ctx l _ hl).2.1⟩
      · simp [hc] at hch
        rcases hch with hch | hch
        · subst hch
          exact ⟨(lineToChunk_fields ctx l _ hl).1, (lineToChunk_fields ctx l _ hl).2.1⟩
        · exact ih (n + 1) e ch hch

/-- No data chunk carries a `finish_reason`. -/
theorem dataChunks_finish (ctx : StreamCtx) :
    ∀ (lines : List String) (ch : OpenAIStreamChunk),
    ch ∈ dataChunks ctx lines → ch.finishReason = "" := by
  intro lines
  induction lines with
  | nil => intro ch hch; simp [dataChunks] at hch
  | cons l rest ih =>
    intro ch hch
    simp only [dataChunks] at hch
    cases hl : lineToChunk ctx l with
    | none => rw [hl] at hch; exact ih ch hch
    | some c =>
      rw [hl] at hch
      rcases List.mem_cons.mp hch with hch | hch
      · subst hch
        exact (lineToChunk_fields ctx l _ hl).2.2
      · exact ih ch hch

/-- When the client is found cancelled at the check following the `k`-th
written chunk (and not before), the loop stops right there: it has written
the first `k` data chunks and returns `nil`. -/
theorem processStream_cancel_take (ctx : StreamCtx) (k : Nat) :
    ∀ (lines : List String) (e : StreamEnd) (n : Nat), n < k →
    k - n ≤ (dataChunks ctx lines).length →
    processStream ctx (fun j => decide (k ≤ j)) n lines e
      = ((dataChunks ctx lines).take (k - n), .done) := by
  intro lines
  induction lines with
  | nil =>
    intro e n h1 h2
    simp [dataChunks] at h2
    omega
  | cons l rest ih =>
    intro e n h1 h2
    cases hl : lineToChunk ctx l with
    | none =>
      rw [show processStream ctx (fun j => decide (k ≤ j)) n (l :: rest) e
            = processStream ctx (fun j => decide (k ≤ j)) n rest e by
          simp [processStream, hl]]
      rw [show dataChunks ctx (l :: rest) = dataChunks ctx rest by
          simp [dataChunks, hl]]
      rw [show (dataChunks ctx (l :: rest)).length = (dataChunks ctx rest).length by
          simp [dataChunks, hl]] at h2
      exact ih e n h1 h2
    | some c =>
      have hdc : dataChunks ctx (l :: rest) = c :: dataChunks ctx rest := by
        simp [dataChunks, hl]
      rw [hdc] at h2 ⊢
      by_cases hc : k ≤ n + 1
      · have hk : k - n = 1 := by omega
        simp [processStream, hl, hc, hk]
      · have h1b : n + 1 < k := by omega
        have h2b : k - (n + 1) ≤ (dataChunks ctx rest).length := by
          simp at h2; omega
        have hrec := ih e (n + 1) h1b h2b
        have hkn : k - n = (k - (n + 1)) + 1 := by omega
        simp [processStream, hl, hc, hrec, hkn, List.take_succ_cons]

/-- C7: when the client connection is found cancelled at the post-write
check of the `k`-th chunk, with at least one chunk written (`1 ≤ k`), the
streaming translator stops right after that check: it has written exactly
the first `k` data chunks, none of which carries `finish_reason = "stop"`
(no terminal chunk), and it returns without reporting an error. -/
theorem cancel_after_chunk_stops (cid : String) (cr : Int) (m : String)
    (lines : List String) (e : StreamEnd) (k : Nat)
    (h1 : 1 ≤ k) (h2 : k ≤ (dataChunks ⟨cid, cr, m⟩ lines).length) :
    processStream ⟨cid, cr, m⟩ (fun j => decide (k ≤ j)) 0 lines e
      = ((dataChunks ⟨cid, cr, m⟩ lines).take k, .done) ∧
    ((dataChunks ⟨cid, cr, m⟩ lines).take k).all
      (fun ch => ch.finishReason != "stop") = true := by
  constructor
  · have h := processStream_cancel_take ⟨cid, cr, m⟩ k lines e 0
      (by omega) (by simpa using h2)
    simpa using h
  · rw [List.all_eq_true]
    intro ch hch
    have hmem : ch ∈ dataChunks ⟨cid, cr, m⟩ lines := List.take_subset _ _ hch
    have hfr := dataChunks_finish ⟨cid, cr, m⟩ lines ch hmem
    simp [hfr]

/-- C7 applied: cancellation observed right after the first chunk of a
two-line backend stream stops the loop with that one chunk written and no
terminal chunk, returning without error. -/
theorem cancel_after_chunk_stops_app :
    processStream ⟨"cid", 0, "m"⟩ (fun j => decide (1 ≤ j)) 0
      ["data: \x7b\"content\":\"A\"\x7d\n", "data: \x7b\"content\":\"B\"\x7d\n"]
      .eof
      = ((dataChunks ⟨"cid", 0, "m"⟩
          ["data: \x7b\"content\":\"A\"\x7d\n",
           "data: \x7b\"content\":\"B\"\x7d\n"]).take 1, .done) :=
  (cancel_after_chunk_stops "cid" 0 "m"
    ["data: \x7b\"content\":\"A\"\x7d\n", "data: \x7b\"content\":\"B\"\x7d\n"]
    .eof 1 (Nat.le_refl 1)
    (by rw [show (dataChunks ⟨"cid", 0, "m"⟩
        ["data: \x7b\"content\":\"A\"\x7d\n",
         "data: \x7b\"content\":\"B\"\x7d\n"]).length = 2 from rfl]; omega)).1

/-- C9: every failing request is answered with the JSON envelope
`error` holding `message` and `type`, with `type` drawn from the
five-element taxonomy and the HTTP status the spec assigns to that type:
500 for `token_error`, `internal_error` and `stream_error`, 400 for
`invalid_request_error`, 502 for `downstream_error`. -/
theorem error_envelope_status_mapping (cfg : ProxyConfig)
    (tokenNet : Option String) (inbound : Option JObj)
    (backend : Option BackendResp) (su nu : String) (sc nc : Int)
    (cancelled : Nat → Bool) :
    errorRepliesWellFormed
      (openaiProxyHandler cfg tokenNet inbound backend su nu sc nc cancelled)
      = true := by
  unfold openaiProxyHandler
  repeat' split
  all_goals try rfl
  all_goals simp only []
  all_goals repeat' split
  all_goals rfl

/-! ### Identifier-format lemmas for C5 -/

theorem strData_append (s t : String) : (s ++ t).data = s.data ++ t.data := by
  obtain ⟨ls⟩ := s
  obtain ⟨lt⟩ := t
  rfl

theorem hex_ne_dash {c : Char} (h : isHexDigit c = true) : (c != '-') = true := by
  rw [bne_iff_ne]
  intro hc
  subst hc
  exact absurd h (by decide)

/-- The identifier built from a UUID-shaped random string matches
`^chatcmpl-` followed by exactly 32 lowercase hex digits. -/
theorem mkChatcmplID_format (u : String) (hu : IsUUIDText u) :
    matchesChatcmplID (mkChatcmplID u) = true := by
  obtain ⟨a, b, c, d, e, heq, ha, hb, hc, hd, he, hha, hhb, hhc, hhd, hhe⟩ := hu
  have fa : a.filter (fun x => x != '-') = a :=
    List.filter_eq_self.mpr (fun x hx => hex_ne_dash (hha x hx))
  have fb : b.filter (fun x => x != '-') = b :=
    List.filter_eq_self.mpr (fun x hx => hex_ne_dash (hhb x hx))
  have fc : c.filter (fun x => x != '-') = c :=
    List.filter_eq_self.mpr (fun x hx => hex_ne_dash (hhc x hx))
  have fd : d.filter (fun x => x != '-') = d :=
    List.filter_eq_self.mpr (fun x hx => hex_ne_dash (hhd x hx))
  have fe : e.filter (fun x => x != '-') = e :=
    List.filter_eq_self.mpr (fun x hx => hex_ne_dash (hhe x hx))
  have hfilter : u.data.filter (fun x => x != '-')
      = a ++ (b ++ (c ++ (d ++ e))) := by
    rw [heq]
    simp [List.filter_append, fa, fb, fc, fd, fe]
  have hdata : (mkChatcmplID u).data
      = "chatcmpl-".data ++ (a ++ (b ++ (c ++ (d ++ e)))) := by
    unfold mkChatcmplID stripDashes
    rw [strData_append]
    rw [show (String.mk (u.data.filter (fun x => x != '-'))).data
        = u.data.filter (fun x => x != '-') from rfl]
    rw [hfilter]
  have hlen : (a ++ (b ++ (c ++ (d ++ e)))).length = 32 := by
    simp [ha, hb, hc, hd, he]
  unfold matchesChatcmplID strStartsWith
  rw [hdata]
  have hpre : "chatcmpl-".data.isPrefixOf
      ("chatcmpl-".data ++ (a ++ (b ++ (c ++ (d ++ e))))) = true :=
    List.isPrefixOf_iff_prefix.mpr (List.prefix_append _ _)
  have hdrop : ("chatcmpl-".data ++ (a ++ (b ++ (c ++ (d ++ e))))).drop 9
      = a ++ (b ++ (c ++ (d ++ e))) := by
    rw [show (9 : Nat) = ("chatcmpl-".data).length from rfl]
    exact List.drop_left _ _
  rw [hpre, hdrop, hlen]
  have hall : (a ++ (b ++ (c ++ (d ++ e)))).all isHexDigit = true := by
    rw [List.all_eq_true]
    intro x hx
    rcases List.mem_append.mp hx with hx | hx
    · exact hha x hx
    rcases List.mem_append.mp hx with hx | hx
    · exact hhb x hx
    rcases List.mem_append.mp hx with hx | hx
    · exact hhc x hx
    rcases List.mem_append.mp hx with hx | hx
    · exact hhd x hx
    · exact hhe x hx
  rw [hall]
  rfl

/-- C5: with the random text in UUID shape, every produced identifier is
`chatcmpl-` followed by 32 lowercase hex digits; within one stream every
written chunk — the terminal chunk included — carries that one identifier
and the one creation timestamp computed at stream start, and the
non-stream `ChatCompletion` identifier has the same shape. -/
theorem chunk_id_format_and_constancy (u : String) (hu : IsUUIDText u)
    (cr : Int) (m : String) (cancelled : Nat → Bool) (n : Nat)
    (lines : List String) (e : StreamEnd) (ch : OpenAIStreamChunk)
    (hch : ch ∈ (processStream ⟨mkChatcmplID u, cr, m⟩ cancelled n lines e).1)
    (d : JObj) :
    matchesChatcmplID (mkChatcmplID u) = true ∧
    ch.id = mkChatcmplID u ∧ ch.created = cr ∧
    (convertCore d m u cr).id = mkChatcmplID u := by
  have hfields := processStream_mem_fields ⟨mkChatcmplID u, cr, m⟩ cancelled
    lines n e ch hch
  exact ⟨mkChatcmplID_format u hu, hfields.1, hfields.2, rfl⟩

/-- C5 applied: the identifier built from the UUID text
`01234567-89ab-cdef-0123-456789abcdef` matches the required shape (the
terminal chunk of an empty stream carrying it). -/
theorem chunk_id_format_and_constancy_app :
    matchesChatcmplID
      (mkChatcmplID "01234567-89ab-cdef-0123-456789abcdef") = true := by
  have hu : IsUUIDText "01234567-89ab-cdef-0123-456789abcdef" := by
    refine ⟨"01234567".data, "89ab".data, "cdef".data, "0123".data,
      "456789abcdef".data, ?_, ?_, ?_, ?_, ?_, ?_, ?_, ?_, ?_, ?_, ?_⟩
    all_goals decide
  exact (chunk_id_format_and_constancy "01234567-89ab-cdef-0123-456789abcdef"
    hu 0 "m" (fun _ => false) 0 [] .eof
    (finishChunk ⟨mkChatcmplID "01234567-89ab-cdef-0123-456789abcdef", 0, "m"⟩)
    (by simp [processStream]) []).1

end OpenAIGateway
